import Mathlib

/-!
Shallow embedding of the wallet-service ledger core
(src/app/services/wallet_service.py and src/app/routes/wallet.py).

Modelling choices:
- Monetary values (Python Decimal Naira with two fractional digits, stored
  as Numeric(15,2)) are modelled exactly as integers counting minor units
  (kobo): the stored decimal x.yz Naira is the integer 100*x + yz. Addition,
  subtraction and order on the Decimal values correspond exactly to those on
  the minor-unit integers, and the routes' kobo-to-Naira division by 100 is
  the identity on this representation.
- Timestamps are abstract Nat ticks; functions that read the clock take the
  current tick as an explicit parameter.
- The SQLAlchemy session is modelled as an explicit state (lists of wallet
  rows and transaction rows); a query .first() is List.find?, and an in-place
  mutation of a fetched row is modifyFirst on the matching row.
- Nondeterministic reference generation (secrets.token_hex) is modelled by
  passing the generated reference as a parameter.
- Incidental presentation fields (description text, HTML rendering) are
  omitted; all fields the specification claims talk about are kept.
-/

namespace WalletService

/-- Replace the first element satisfying p by its image under f
(models an in-place update of the row returned by query(...).first()). -/
def modifyFirst (p : α → Bool) (f : α → α) : List α → List α
  | [] => []
  | x :: xs => if p x then f x :: xs else x :: modifyFirst p f xs

inductive TransactionType where
  | deposit
  | transfer
  | received
deriving DecidableEq, Repr

inductive TransactionStatus where
  | pending
  | success
  | failed
deriving DecidableEq, Repr

structure Wallet where
  id : Nat
  user_id : Nat
  wallet_number : String
  balance : Int
deriving DecidableEq, Repr

structure Transaction where
  reference : String
  user_id : Nat
  wallet_id : Nat
  recipient_wallet_id : Option Nat := none
  type : TransactionType
  amount : Int
  status : TransactionStatus
  authorization_url : Option String := none
  created_at : Nat := 0
  updated_at : Nat := 0
deriving DecidableEq, Repr

/-- The persistent store: wallet rows and transaction rows. -/
structure DB where
  wallets : List Wallet
  transactions : List Transaction
deriving DecidableEq, Repr

def DB.getWalletByUser (db : DB) (uid : Nat) : Option Wallet :=
  db.wallets.find? (fun w => w.user_id == uid)

def DB.getWalletById (db : DB) (wid : Nat) : Option Wallet :=
  db.wallets.find? (fun w => w.id == wid)

def DB.getWalletByNumber (db : DB) (num : String) : Option Wallet :=
  db.wallets.find? (fun w => w.wallet_number == num)

def DB.getTransactionByReference (db : DB) (ref : String) : Option Transaction :=
  db.transactions.find? (fun t => t.reference == ref)

/-- Observed balance of the wallet row with the given id. -/
def DB.walletBalance (db : DB) (wid : Nat) : Option Int :=
  (db.getWalletById wid).map Wallet.balance

def DB.updateWalletBalance (db : DB) (wid : Nat) (f : Int → Int) : DB :=
  { db with wallets :=
      modifyFirst (fun w => w.id == wid) (fun w => { w with balance := f w.balance }) db.wallets }

def DB.updateTransactionByRef (db : DB) (ref : String) (f : Transaction → Transaction) : DB :=
  { db with transactions :=
      modifyFirst (fun t => t.reference == ref) f db.transactions }

/-- wallet_service.create_deposit_transaction: insert a Pending deposit row
for the user's wallet; ValueError when the wallet is absent. -/
def create_deposit_transaction (user_id : Nat) (amount : Int) (reference : String)
    (authorization_url : String) (now : Nat) (db : DB) :
    Except String (Transaction × DB) :=
  match db.getWalletByUser user_id with
  | none => .error "Wallet not found"
  | some wallet =>
    let t : Transaction :=
      { reference := reference
        user_id := user_id
        wallet_id := wallet.id
        type := .deposit
        amount := amount
        status := .pending
        authorization_url := some authorization_url
        created_at := now
        updated_at := now }
    .ok (t, { db with transactions := db.transactions ++ [t] })

/-- wallet_service.credit_wallet_from_deposit: the webhook-driven credit.
Returns the bool result together with the post-state. -/
def credit_wallet_from_deposit (reference : String) (now : Nat) (db : DB) : Bool × DB :=
  match db.getTransactionByReference reference with
  | none => (false, db)
  | some transaction =>
    if transaction.status = TransactionStatus.success then
      (true, db)
    else if transaction.type ≠ TransactionType.deposit then
      (false, db)
    else
      match db.getWalletById transaction.wallet_id with
      | none => (false, db)
      | some _ =>
        let db1 := db.updateWalletBalance transaction.wallet_id (fun b => b + transaction.amount)
        let db2 := db1.updateTransactionByRef reference
          (fun t => { t with status := .success, updated_at := now })
        (true, db2)

inductive TransferError where
  | senderWalletNotFound
  | insufficientBalance
  | recipientWalletNotFound
  | selfTransfer
deriving DecidableEq, Repr

/-- wallet_service.transfer_funds: validate then move money and insert the
two Success rows. The freshly generated reference is a parameter. -/
def transfer_funds (sender_user_id : Nat) (recipient_wallet_number : String)
    (amount : Int) (reference : String) (now : Nat) (db : DB) :
    Except TransferError (Transaction × DB) :=
  match db.getWalletByUser sender_user_id with
  | none => .error .senderWalletNotFound
  | some sender_wallet =>
    if sender_wallet.balance < amount then
      .error .insufficientBalance
    else
      match db.getWalletByNumber recipient_wallet_number with
      | none => .error .recipientWalletNotFound
      | some recipient_wallet =>
        if recipient_wallet.user_id = sender_user_id then
          .error .selfTransfer
        else
          let transfer_transaction : Transaction :=
            { reference := reference
              user_id := sender_user_id
              wallet_id := sender_wallet.id
              recipient_wallet_id := some recipient_wallet.id
              type := .transfer
              amount := amount
              status := .success
              created_at := now
              updated_at := now }
          let received_transaction : Transaction :=
            { reference := reference ++ "_received"
              user_id := recipient_wallet.user_id
              wallet_id := recipient_wallet.id
              type := .received
              amount := amount
              status := .success
              created_at := now
              updated_at := now }
          let db1 : DB :=
            { db with transactions :=
                db.transactions ++ [transfer_transaction, received_transaction] }
          let db2 := db1.updateWalletBalance sender_wallet.id (fun b => b - amount)
          let db3 := db2.updateWalletBalance recipient_wallet.id (fun b => b + amount)
          .ok (transfer_transaction, db3)

/-- The post-state of a transfer_funds call: the committed state on success,
the unchanged session state when a ValueError aborts before any mutation. -/
def transfer_funds_state (sender_user_id : Nat) (recipient_wallet_number : String)
    (amount : Int) (reference : String) (now : Nat) (db : DB) : DB :=
  match transfer_funds sender_user_id recipient_wallet_number amount reference now db with
  | .ok p => p.2
  | .error _ => db

/-- Configured minimum transfer, in kobo (config.Settings.MIN_TRANSFER_AMOUNT). -/
def MIN_TRANSFER_AMOUNT : Int := 100

/-- Configured minimum deposit, in kobo (config.Settings.MIN_DEPOSIT_AMOUNT). -/
def MIN_DEPOSIT_AMOUNT : Int := 100

inductive TransferRouteResult where
  | badRequestMinAmount
  | serviceError (e : TransferError)
  | success (reference : String)
deriving DecidableEq, Repr

/-- routes/wallet.transfer_funds_to_wallet: the POST /wallet/transfer handler.
Amount arrives in kobo; the route rejects amounts below 100 kobo before
calling the service. The source converts the kobo amount to a Decimal Naira
amount for the service call; on the minor-unit representation of money that
conversion is the identity, so the amount is passed through unchanged. -/
def transfer_funds_to_wallet (user_id : Nat) (wallet_number : String)
    (amount_kobo : Int) (reference : String) (now : Nat) (db : DB) :
    TransferRouteResult × DB :=
  if amount_kobo < 100 then
    (.badRequestMinAmount, db)
  else
    match transfer_funds user_id wallet_number amount_kobo reference now db with
    | .error e => (.serviceError e, db)
    | .ok p => (.success p.1.reference, p.2)

inductive DepositStatusResult where
  | notFound
  | accessDenied
  | ok (reference : String) (st : TransactionStatus) (amount : Int)
deriving DecidableEq, Repr

/-- The status write-back of the deposit-status route (lines 406-417 of
routes/wallet.py): on a Pending transaction, a Paystack verification result
of success or failed is written to the transaction status; any other result,
or a verification exception (modelled as none), leaves the store unchanged. -/
def refreshStatus (reference : String) (paystack : Option String) (db : DB) : DB :=
  match paystack with
  | some s =>
    if s = "success" then
      db.updateTransactionByRef reference (fun t => { t with status := .success })
    else if s = "failed" then
      db.updateTransactionByRef reference (fun t => { t with status := .failed })
    else
      db
  | none => db

/-- routes/wallet.get_deposit_status: the GET /wallet/deposit/.../status
handler. The Paystack verification outcome is a parameter: some s is the
status string Paystack reported, none models the verification call raising
(the route swallows the exception and keeps the stored status). -/
def get_deposit_status (reference : String) (current_user_id : Nat)
    (paystack : Option String) (db : DB) : DepositStatusResult × DB :=
  match db.getTransactionByReference reference with
  | none => (.notFound, db)
  | some transaction =>
    if transaction.user_id ≠ current_user_id then
      (.accessDenied, db)
    else if transaction.status = TransactionStatus.pending then
      match (refreshStatus reference paystack db).getTransactionByReference reference with
      | some t2 => (.ok t2.reference t2.status t2.amount, refreshStatus reference paystack db)
      | none => (.notFound, refreshStatus reference paystack db)
    else
      (.ok transaction.reference transaction.status transaction.amount, db)

/-- Insert a transaction into a list sorted by created_at descending
(models the ORDER BY created_at DESC of the history query). -/
def insertDesc (t : Transaction) : List Transaction → List Transaction
  | [] => [t]
  | x :: xs =>
    if x.created_at ≤ t.created_at then t :: x :: xs else x :: insertDesc t xs

/-- Sort transactions by created_at descending. -/
def sortDesc : List Transaction → List Transaction
  | [] => []
  | x :: xs => insertDesc x (sortDesc xs)

/-- wallet_service.get_transaction_history: the user's rows ordered by
created_at descending, with OFFSET offset LIMIT limit applied. -/
def get_transaction_history (user_id : Nat) (limit : Nat) (offset : Nat) (db : DB) :
    List Transaction :=
  (((sortDesc (db.transactions.filter (fun t => t.user_id == user_id))).drop offset).take limit)

/-- routes/wallet.get_transactions: the GET /wallet/transactions handler
with its limit adjustment (above 100 becomes 100, below 1 becomes 10). -/
def get_transactions_route (user_id : Nat) (limit : Int) (offset : Nat) (db : DB) :
    List Transaction :=
  let limit1 : Int := if limit > 100 then 100 else limit
  let limit2 : Int := if limit1 < 1 then 10 else limit1
  get_transaction_history user_id limit2.toNat offset db

/-- One ledger operation, carrying the environment inputs (amounts, fresh
references, clock reading, Paystack verification outcome) consumed where the
code reads them. -/
inductive LedgerOp where
  | depositInit (user_id : Nat) (amount : Int) (reference url : String) (now : Nat)
  | confirmDeposit (reference : String) (now : Nat)
  | transfer (sender_user_id : Nat) (recipient_wallet_number : String)
      (amount : Int) (reference : String) (now : Nat)
  | statusRefresh (reference : String) (user_id : Nat) (paystack : Option String)
deriving DecidableEq, Repr

/-- The amount argument an operation carries (0 for amount-free operations). -/
def LedgerOp.opAmount : LedgerOp → Int
  | .depositInit _ amount _ _ _ => amount
  | .transfer _ _ amount _ _ => amount
  | _ => 0

/-- State transition of one ledger operation; a rejected operation leaves the
store unchanged. -/
def applyOp (db : DB) : LedgerOp → DB
  | .depositInit uid amount ref url now =>
    match create_deposit_transaction uid amount ref url now db with
    | .ok p => p.2
    | .error _ => db
  | .confirmDeposit ref now => (credit_wallet_from_deposit ref now db).2
  | .transfer sid num amount ref now => transfer_funds_state sid num amount ref now db
  | .statusRefresh ref uid paystack => (get_deposit_status ref uid paystack db).2

/-- Run a sequence of ledger operations. -/
def runOps (db : DB) (ops : List LedgerOp) : DB :=
  ops.foldl applyOp db

/-- Store and ledger integrity: wallet ids are unique (primary key), wallet
balances are non-negative, and recorded transaction amounts are non-negative. -/
def Inv (db : DB) : Prop :=
  (db.wallets.map Wallet.id).Nodup
  ∧ (∀ w ∈ db.wallets, 0 ≤ w.balance)
  ∧ (∀ t ∈ db.transactions, 0 ≤ t.amount)

/-- n successive webhook deliveries of the same reference, the k-th one
arriving at clock tick times k. -/
def confirmIter (ref : String) (times : Nat → Nat) : Nat → DB → DB
  | 0, db => db
  | n + 1, db => (credit_wallet_from_deposit ref (times n) (confirmIter ref times n db)).2

theorem find?_modifyFirst_same {p : α → Bool} {f : α → α} {l : List α} {x : α}
    (hx : l.find? p = some x) (hfx : p (f x) = true) :
    (modifyFirst p f l).find? p = some (f x) := by
  induction l with
  | nil => simp at hx
  | cons a t ih =>
    cases hpa : p a with
    | true =>
      rw [List.find?_cons_of_pos _ hpa] at hx
      injection hx with hx
      subst hx
      simp [modifyFirst, hpa, List.find?_cons_of_pos _ hfx]
    | false =>
      have hpa' : ¬ p a = true := by simp [hpa]
      rw [List.find?_cons_of_neg _ hpa'] at hx
      simp [modifyFirst, hpa, List.find?_cons_of_neg _ hpa', ih hx]

theorem find?_modifyFirst_of_disjoint {p q : α → Bool} {f : α → α} {l : List α}
    (hpq : ∀ y, p y = true → q y = false)
    (hfq : ∀ y, q (f y) = q y) :
    (modifyFirst p f l).find? q = l.find? q := by
  induction l with
  | nil => rfl
  | cons a t ih =>
    cases hpa : p a with
    | true =>
      have hqa := hpq a hpa
      have hqfa : q (f a) = false := by rw [hfq]; exact hqa
      have hqa' : ¬ q a = true := by simp [hqa]
      have hqfa' : ¬ q (f a) = true := by simp [hqfa]
      simp [modifyFirst, hpa, List.find?_cons_of_neg _ hqa',
        List.find?_cons_of_neg _ hqfa']
    | false =>
      cases hqa : q a with
      | true =>
        simp [modifyFirst, hpa, List.find?_cons_of_pos _ hqa]
      | false =>
        have hqa' : ¬ q a = true := by simp [hqa]
        simp [modifyFirst, hpa, List.find?_cons_of_neg _ hqa', ih]

theorem mem_modifyFirst {p : α → Bool} {f : α → α} {l : List α} {y : α}
    (hy : y ∈ modifyFirst p f l) :
    y ∈ l ∨ ∃ x, l.find? p = some x ∧ y = f x := by
  induction l with
  | nil => simp [modifyFirst] at hy
  | cons a t ih =>
    cases hpa : p a with
    | true =>
      simp only [modifyFirst, hpa, if_pos] at hy
      rcases List.mem_cons.mp hy with rfl | hyt
      · exact Or.inr ⟨a, List.find?_cons_of_pos _ hpa, rfl⟩
      · exact Or.inl (List.mem_cons_of_mem _ hyt)
    | false =>
      simp only [modifyFirst, hpa, Bool.false_eq_true, if_neg, not_false_eq_true] at hy
      rcases List.mem_cons.mp hy with rfl | hyt
      · exact Or.inl (List.mem_cons_self _ _)
      · rcases ih hyt with h | ⟨x, hx, hyx⟩
        · exact Or.inl (List.mem_cons_of_mem _ h)
        · refine Or.inr ⟨x, ?_, hyx⟩
          have hpa' : ¬ p a = true := by simp [hpa]
          rw [List.find?_cons_of_neg _ hpa']
          exact hx

theorem map_modifyFirst {p : α → Bool} {f : α → α} {g : α → β} {l : List α}
    (hg : ∀ x, g (f x) = g x) : (modifyFirst p f l).map g = l.map g := by
  induction l with
  | nil => rfl
  | cons a t ih =>
    cases hpa : p a with
    | true => simp [modifyFirst, hpa, hg]
    | false => simp [modifyFirst, hpa, ih]

theorem find?_key_of_nodup {g : α → Nat} {l : List α} {x : α}
    (hnd : (l.map g).Nodup) (hx : x ∈ l) :
    l.find? (fun y => g y == g x) = some x := by
  induction l with
  | nil => simp at hx
  | cons a t ih =>
    rw [List.map_cons, List.nodup_cons] at hnd
    rcases List.mem_cons.mp hx with rfl | hxt
    · exact List.find?_cons_of_pos _ (by simp)
    · have hga : g a ≠ g x := by
        intro he
        exact hnd.1 (he ▸ List.mem_map_of_mem g hxt)
      rw [List.find?_cons_of_neg _ (by simp [hga])]
      exact ih hnd.2 hxt

/-! Concrete states used to instantiate the claim theorems. -/

def exW1 : Wallet := { id := 1, user_id := 1, wallet_number := "W1", balance := 0 }

def exW2 : Wallet := { id := 2, user_id := 2, wallet_number := "W2", balance := 0 }

def exDB1 : DB := { wallets := [exW1, exW2], transactions := [] }

def exTx2 : Transaction :=
  { reference := "d2", user_id := 1, wallet_id := 1, type := .deposit,
    amount := 100, status := .pending }

def exDB2 : DB := { wallets := [exW1, exW2], transactions := [exTx2] }

def exTx9 : Transaction :=
  { reference := "t9", user_id := 1, wallet_id := 1, type := .transfer,
    amount := 5, status := .success }

def exDB9 : DB := { wallets := [exW1], transactions := [exTx9] }

/-- A deposit confirmation arriving for a transaction already in status
Success returns True and leaves the store untouched, whatever the type. -/
theorem confirm_noop_of_success {db : DB} {ref : String} {tx : Transaction} (now : Nat)
    (htx : db.getTransactionByReference ref = some tx)
    (hst : tx.status = TransactionStatus.success) :
    credit_wallet_from_deposit ref now db = (true, db) := by
  unfold credit_wallet_from_deposit
  rw [htx]
  simp [hst]

/-- Claim C9: deposit confirmation reports applied (returns true) for every
transaction already in status Success regardless of its type, because the
already-Success check precedes the type check; confirming the reference of a
Success Transfer or Received transaction returns success with no state
change. -/
theorem C9_success_check_precedes_type_check (db : DB) (ref : String) (now : Nat)
    (tx : Transaction)
    (htx : db.getTransactionByReference ref = some tx)
    (hst : tx.status = TransactionStatus.success) :
    credit_wallet_from_deposit ref now db = (true, db) :=
  confirm_noop_of_success now htx hst

/-- Witness for C9 at a Success transaction of type Transfer. -/
theorem C9_success_check_precedes_type_check_witness :
    credit_wallet_from_deposit "t9" 0 exDB9 = (true, exDB9) :=
  C9_success_check_precedes_type_check exDB9 "t9" 0 exTx9 (by decide) (by decide)

/-- Claim C6: the transfer route rejects every amount that is not positive or
is below the 100-kobo minimum before the service runs, returning the
invalid-amount error with the store unchanged. -/
theorem C6_transfer_rejects_invalid_amount (uid : Nat) (num : String) (k : Int)
    (ref : String) (now : Nat) (db : DB)
    (h : ¬ 0 < k ∨ k < MIN_TRANSFER_AMOUNT) :
    transfer_funds_to_wallet uid num k ref now db = (.badRequestMinAmount, db) := by
  have hk : k < 100 := by
    rcases h with h | h
    · omega
    · simpa [MIN_TRANSFER_AMOUNT] using h
  unfold transfer_funds_to_wallet
  rw [if_pos hk]

/-- Witness for C6 at a negative amount. -/
theorem C6_transfer_rejects_invalid_amount_witness :
    transfer_funds_to_wallet 1 "W2" (-5) "r6" 0 exDB1 = (.badRequestMinAmount, exDB1) :=
  C6_transfer_rejects_invalid_amount 1 "W2" (-5) "r6" 0 exDB1 (Or.inl (by decide))

/-- Claim C7: when the sender wallet exists and its balance is below the
transfer amount, the transfer fails with the InsufficientBalance error and
the store is unchanged (the check precedes every mutation, so the error
path commits nothing). -/
theorem C7_insufficient_balance_unchanged (sid : Nat) (num : String) (amt : Int)
    (ref : String) (now : Nat) (db : DB) (w : Wallet)
    (hw : db.getWalletByUser sid = some w)
    (hb : w.balance < amt) :
    transfer_funds sid num amt ref now db = .error .insufficientBalance
    ∧ transfer_funds_state sid num amt ref now db = db := by
  have hmain : transfer_funds sid num amt ref now db = .error .insufficientBalance := by
    unfold transfer_funds
    rw [hw]
    simp [hb]
  refine ⟨hmain, ?_⟩
  unfold transfer_funds_state
  rw [hmain]

/-- Witness for C7: wallet with zero balance, 100-kobo transfer. -/
theorem C7_insufficient_balance_unchanged_witness :
    transfer_funds 1 "W2" 100 "r7" 0 exDB1 = .error .insufficientBalance
    ∧ transfer_funds_state 1 "W2" 100 "r7" 0 exDB1 = exDB1 :=
  C7_insufficient_balance_unchanged 1 "W2" 100 "r7" 0 exDB1 exW1
    (by decide) (by decide)

/-- Claim C10: the service checks the sender balance before resolving the
recipient, so an underfunded transfer reports InsufficientBalance even when
the recipient wallet number does not exist or resolves to the sender's own
wallet. -/
theorem C10_balance_check_precedes_recipient_lookup (sid : Nat) (num : String)
    (amt : Int) (ref : String) (now : Nat) (db : DB) (w : Wallet)
    (hw : db.getWalletByUser sid = some w)
    (hb : w.balance < amt)
    (hrec : db.getWalletByNumber num = none
        ∨ ∃ rwal, db.getWalletByNumber num = some rwal ∧ rwal.user_id = sid) :
    transfer_funds sid num amt ref now db = .error .insufficientBalance := by
  unfold transfer_funds
  rw [hw]
  simp [hb]

/-- Witness for C10 at a nonexistent recipient wallet number. -/
theorem C10_balance_check_precedes_recipient_lookup_witness :
    transfer_funds 1 "NOPE" 3 "r10" 0 exDB1 = .error .insufficientBalance :=
  C10_balance_check_precedes_recipient_lookup 1 "NOPE" 3 "r10" 0 exDB1 exW1
    (by decide) (by decide) (Or.inl (by decide))

theorem getTransaction_updateWalletBalance (db : DB) (wid : Nat) (g : Int → Int)
    (ref : String) :
    (db.updateWalletBalance wid g).getTransactionByReference ref
      = db.getTransactionByReference ref := rfl

theorem walletBalance_updateTransactionByRef (db : DB) (ref : String)
    (f : Transaction → Transaction) (wid : Nat) :
    (db.updateTransactionByRef ref f).walletBalance wid = db.walletBalance wid := rfl

theorem getTransaction_updateTransactionByRef_same {db : DB} {ref : String}
    {tx : Transaction} {f : Transaction → Transaction}
    (htx : db.getTransactionByReference ref = some tx)
    (hfr : (f tx).reference = tx.reference) :
    (db.updateTransactionByRef ref f).getTransactionByReference ref = some (f tx) := by
  have htx' : db.transactions.find? (fun t => t.reference == ref) = some tx := htx
  have hp := List.find?_some htx'
  unfold DB.getTransactionByReference DB.updateTransactionByRef
  exact find?_modifyFirst_same htx' (by show ((f tx).reference == ref) = true; rw [hfr]; exact hp)

theorem walletBalance_updateWalletBalance_same {db : DB} {wid : Nat} {w : Wallet}
    {g : Int → Int}
    (hw : db.getWalletById wid = some w) :
    (db.updateWalletBalance wid g).walletBalance wid = some (g w.balance) := by
  have hw' : db.wallets.find? (fun y => y.id == wid) = some w := hw
  have hp := List.find?_some hw'
  unfold DB.walletBalance DB.getWalletById DB.updateWalletBalance
  rw [find?_modifyFirst_same hw' hp]
  rfl

theorem walletBalance_updateWalletBalance_other {db : DB} {wid wid2 : Nat}
    {g : Int → Int} (hne : wid ≠ wid2) :
    (db.updateWalletBalance wid g).walletBalance wid2 = db.walletBalance wid2 := by
  unfold DB.walletBalance DB.getWalletById DB.updateWalletBalance
  rw [find?_modifyFirst_of_disjoint]
  · intro y hy
    have : y.id = wid := by simpa using hy
    simp [this]
    omega
  · intro y
    rfl

/-- The first delivery of a confirmation for a Pending deposit: it returns
True and produces the state with the wallet credited and the transaction
marked Success. -/
theorem confirm_first_call {db : DB} {ref : String} {tx : Transaction} {w : Wallet}
    (now : Nat)
    (htx : db.getTransactionByReference ref = some tx)
    (hst : tx.status = TransactionStatus.pending)
    (hty : tx.type = TransactionType.deposit)
    (hw : db.getWalletById tx.wallet_id = some w) :
    credit_wallet_from_deposit ref now db
      = (true,
         (db.updateWalletBalance tx.wallet_id
            (fun b => b + tx.amount)).updateTransactionByRef ref
              (fun t => { t with status := .success, updated_at := now })) := by
  unfold credit_wallet_from_deposit
  rw [htx]
  simp [hst, hty, hw]

/-- Claim C2: confirming a Pending deposit N times (N at least 1) credits the
owning wallet by the transaction amount exactly once; the state is already
fixed after the first call, and every further call returns success and leaves
the balance identical. -/
theorem C2_confirm_deposit_idempotent (db : DB) (ref : String) (times : Nat → Nat)
    (tx : Transaction) (w : Wallet) (n : Nat)
    (htx : db.getTransactionByReference ref = some tx)
    (hst : tx.status = TransactionStatus.pending)
    (hty : tx.type = TransactionType.deposit)
    (hw : db.getWalletById tx.wallet_id = some w)
    (hn : 1 ≤ n) :
    confirmIter ref times n db = confirmIter ref times 1 db
    ∧ (confirmIter ref times n db).walletBalance tx.wallet_id
        = some (w.balance + tx.amount)
    ∧ (credit_wallet_from_deposit ref (times n) (confirmIter ref times n db)).1
        = true := by
  have h1 : confirmIter ref times 1 db
      = (db.updateWalletBalance tx.wallet_id
          (fun b => b + tx.amount)).updateTransactionByRef ref
            (fun t => { t with status := .success, updated_at := times 0 }) := by
    show (credit_wallet_from_deposit ref (times 0) db).2 = _
    rw [confirm_first_call (times 0) htx hst hty hw]
  have hA : (confirmIter ref times 1 db).getTransactionByReference ref
      = some { tx with status := .success, updated_at := times 0 } := by
    rw [h1]
    exact getTransaction_updateTransactionByRef_same
      (by rw [getTransaction_updateWalletBalance]; exact htx) rfl
  have hB : (confirmIter ref times 1 db).walletBalance tx.wallet_id
      = some (w.balance + tx.amount) := by
    rw [h1, walletBalance_updateTransactionByRef]
    exact walletBalance_updateWalletBalance_same hw
  have hfix : ∀ m, credit_wallet_from_deposit ref m (confirmIter ref times 1 db)
      = (true, confirmIter ref times 1 db) := fun m =>
    confirm_noop_of_success m hA rfl
  have hiter : ∀ k, confirmIter ref times (k + 1) db = confirmIter ref times 1 db := by
    intro k
    induction k with
    | zero => rfl
    | succ k ih =>
      show (credit_wallet_from_deposit ref (times (k + 1))
              (confirmIter ref times (k + 1) db)).2 = _
      rw [ih, hfix]
  obtain ⟨k, rfl⟩ : ∃ k, n = k + 1 := ⟨n - 1, by omega⟩
  refine ⟨hiter k, ?_, ?_⟩
  · rw [hiter k]; exact hB
  · rw [hiter k, hfix]

/-- Witness for C2: a Pending 100-kobo deposit confirmed three times credits
the wallet once and the third call still returns success. -/
theorem C2_confirm_deposit_idempotent_witness :
    confirmIter "d2" (fun _ => 5) 3 exDB2 = confirmIter "d2" (fun _ => 5) 1 exDB2
    ∧ (confirmIter "d2" (fun _ => 5) 3 exDB2).walletBalance 1 = some (0 + 100)
    ∧ (credit_wallet_from_deposit "d2" 5 (confirmIter "d2" (fun _ => 5) 3 exDB2)).1
        = true :=
  C2_confirm_deposit_idempotent exDB2 "d2" (fun _ => 5) exTx2 exW1 3
    (by decide) (by decide) (by decide) (by decide) (by decide)

theorem getWalletById_updateWalletBalance_other {db : DB} {wid wid2 : Nat}
    {g : Int → Int} (hne : wid ≠ wid2) :
    (db.updateWalletBalance wid g).getWalletById wid2 = db.getWalletById wid2 := by
  unfold DB.getWalletById DB.updateWalletBalance
  rw [find?_modifyFirst_of_disjoint]
  · intro y hy
    have : y.id = wid := by simpa using hy
    simp [this]
    omega
  · intro y
    rfl

def exW3a : Wallet := { id := 1, user_id := 1, wallet_number := "W1", balance := 500 }

def exW3b : Wallet := { id := 2, user_id := 2, wallet_number := "W2", balance := 0 }

def exDB3 : DB := { wallets := [exW3a, exW3b], transactions := [] }

/-- Claim C3: a transfer whose preconditions hold (sender wallet found,
sufficient balance, recipient found, distinct owners) succeeds, debits the
sender by the amount, credits the recipient by the amount, and appends
exactly two Success rows: a Transfer row on the sender under the base
reference and a Received row on the recipient under the base reference
suffixed with the received marker. -/
theorem C3_transfer_atomic_postconditions (db : DB) (sid : Nat) (num ref : String)
    (amt : Int) (now : Nat) (sw rwal : Wallet)
    (hids : (db.wallets.map Wallet.id).Nodup)
    (hsw : db.getWalletByUser sid = some sw)
    (hbal : amt ≤ sw.balance)
    (hrw : db.getWalletByNumber num = some rwal)
    (hself : rwal.user_id ≠ sid) :
    ∃ tx db2,
      transfer_funds sid num amt ref now db = .ok (tx, db2)
      ∧ db2.walletBalance sw.id = some (sw.balance - amt)
      ∧ db2.walletBalance rwal.id = some (rwal.balance + amt)
      ∧ (∃ t2, db2.transactions = db.transactions ++ [tx, t2]
          ∧ tx.reference = ref ∧ tx.type = .transfer ∧ tx.wallet_id = sw.id
          ∧ tx.user_id = sid ∧ tx.amount = amt ∧ tx.status = .success
          ∧ t2.reference = ref ++ "_received" ∧ t2.type = .received
          ∧ t2.wallet_id = rwal.id ∧ t2.user_id = rwal.user_id
          ∧ t2.amount = amt ∧ t2.status = .success) := by
  have hsw' : db.wallets.find? (fun y => y.user_id == sid) = some sw := hsw
  have hmems : sw ∈ db.wallets := List.mem_of_find?_eq_some hsw'
  have hrw' : db.wallets.find? (fun y => y.wallet_number == num) = some rwal := hrw
  have hmemr : rwal ∈ db.wallets := List.mem_of_find?_eq_some hrw'
  have huser : sw.user_id = sid := by simpa using List.find?_some hsw'
  have hne : sw.id ≠ rwal.id := by
    intro h
    have heq : sw = rwal := List.inj_on_of_nodup_map hids hmems hmemr h
    exact hself (by rw [← heq, huser])
  have hgets : db.getWalletById sw.id = some sw := find?_key_of_nodup hids hmems
  have hgetr : db.getWalletById rwal.id = some rwal := find?_key_of_nodup hids hmemr
  have hnotlt : ¬ sw.balance < amt := not_lt.mpr hbal
  have hres : transfer_funds sid num amt ref now db
      = .ok
          ({ reference := ref
             user_id := sid
             wallet_id := sw.id
             recipient_wallet_id := some rwal.id
             type := .transfer
             amount := amt
             status := .success
             created_at := now
             updated_at := now },
           (({ db with transactions := db.transactions ++
                 [{ reference := ref
                    user_id := sid
                    wallet_id := sw.id
                    recipient_wallet_id := some rwal.id
                    type := .transfer
                    amount := amt
                    status := .success
                    created_at := now
                    updated_at := now },
                  { reference := ref ++ "_received"
                    user_id := rwal.user_id
                    wallet_id := rwal.id
                    type := .received
                    amount := amt
                    status := .success
                    created_at := now
                    updated_at := now }] } : DB).updateWalletBalance sw.id
               (fun b => b - amt)).updateWalletBalance rwal.id
                 (fun b => b + amt)) := by
    unfold transfer_funds
    rw [hsw]
    simp [hnotlt, hrw, hself]
  refine ⟨_, _, hres, ?_, ?_, ?_⟩
  · rw [walletBalance_updateWalletBalance_other (Ne.symm hne)]
    exact walletBalance_updateWalletBalance_same hgets
  · refine walletBalance_updateWalletBalance_same ?_
    rw [getWalletById_updateWalletBalance_other hne]
    exact hgetr
  · exact ⟨_, rfl, rfl, rfl, rfl, rfl, rfl, rfl, rfl, rfl, rfl, rfl, rfl, rfl⟩

/-- Witness for C3: a 200-kobo transfer from a 500-kobo wallet to a distinct
owner's empty wallet. -/
theorem C3_transfer_atomic_postconditions_witness :
    ∃ tx db2,
      transfer_funds 1 "W2" 200 "r3" 4 exDB3 = .ok (tx, db2)
      ∧ db2.walletBalance exW3a.id = some (exW3a.balance - 200)
      ∧ db2.walletBalance exW3b.id = some (exW3b.balance + 200)
      ∧ (∃ t2, db2.transactions = exDB3.transactions ++ [tx, t2]
          ∧ tx.reference = "r3" ∧ tx.type = .transfer ∧ tx.wallet_id = exW3a.id
          ∧ tx.user_id = 1 ∧ tx.amount = 200 ∧ tx.status = .success
          ∧ t2.reference = "r3" ++ "_received" ∧ t2.type = .received
          ∧ t2.wallet_id = exW3b.id ∧ t2.user_id = exW3b.user_id
          ∧ t2.amount = 200 ∧ t2.status = .success) :=
  C3_transfer_atomic_postconditions exDB3 1 "W2" "r3" 200 4 exW3a exW3b
    (by decide) (by decide) (by decide) (by decide) (by decide)

theorem getTransaction_append_right {db : DB} {ref : String} {tx : Transaction}
    (l2 : List Transaction)
    (htx : db.getTransactionByReference ref = some tx) :
    ({ db with transactions := db.transactions ++ l2 } : DB).getTransactionByReference ref
      = some tx := by
  unfold DB.getTransactionByReference at htx ⊢
  simp only [List.find?_append, htx]
  rfl

theorem getTransaction_updateTransactionByRef_other {db : DB} {r1 r2 : String}
    {f : Transaction → Transaction} (hne : r1 ≠ r2)
    (hfr : ∀ t, (f t).reference = t.reference) :
    (db.updateTransactionByRef r1 f).getTransactionByReference r2
      = db.getTransactionByReference r2 := by
  unfold DB.getTransactionByReference DB.updateTransactionByRef
  rw [find?_modifyFirst_of_disjoint]
  · intro y hy
    have hy' : y.reference = r1 := by simpa using hy
    simp [hy', hne]
  · intro y
    show ((f y).reference == r2) = (y.reference == r2)
    rw [hfr]

def exTx4 : Transaction :=
  { reference := "dep4", user_id := 1, wallet_id := 1, type := .deposit,
    amount := 100, status := .failed }

def exDB4 : DB := { wallets := [exW1], transactions := [exTx4] }

/-- Counterexample to claim C4 as stated: a Failed deposit transaction is not
terminal. Confirming its reference returns true, flips its status from
Failed to Success, and credits the wallet (the idempotency check only
guards the Success status, not Failed). -/
theorem C4_counterexample_failed_deposit_recredited :
    (exDB4.getTransactionByReference "dep4").map Transaction.status
        = some TransactionStatus.failed
    ∧ (credit_wallet_from_deposit "dep4" 7 exDB4).1 = true
    ∧ ((credit_wallet_from_deposit "dep4" 7 exDB4).2.getTransactionByReference
          "dep4").map Transaction.status = some TransactionStatus.success
    ∧ exDB4.walletBalance 1 = some 0
    ∧ (credit_wallet_from_deposit "dep4" 7 exDB4).2.walletBalance 1 = some 100 := by
  decide

/-- Claim C4 (amended): a transaction in status Success is terminal under
every ledger operation, and so is a Failed transaction that is not a
deposit: the row is preserved exactly (status, amount and all other fields).
A Failed deposit is the exception: deposit confirmation can still credit it
and move it Failed to Success. -/
theorem refreshStatus_getTransaction_other {r2 ref : String} {paystack : Option String}
    {db : DB} {tx : Transaction} (hr : r2 ≠ ref)
    (htx : db.getTransactionByReference ref = some tx) :
    (refreshStatus r2 paystack db).getTransactionByReference ref = some tx := by
  unfold refreshStatus
  cases paystack with
  | none => exact htx
  | some s =>
    show (if s = "success" then
        db.updateTransactionByRef r2 (fun t => { t with status := .success })
      else if s = "failed" then
        db.updateTransactionByRef r2 (fun t => { t with status := .failed })
      else db).getTransactionByReference ref = some tx
    by_cases hs1 : s = "success"
    · rw [if_pos hs1, getTransaction_updateTransactionByRef_other hr]
      · exact htx
      · intro t
        rfl
    · rw [if_neg hs1]
      by_cases hs2 : s = "failed"
      · rw [if_pos hs2, getTransaction_updateTransactionByRef_other hr]
        · exact htx
        · intro t
          rfl
      · rw [if_neg hs2]
        exact htx

theorem C4_amended_success_terminal (db : DB) (ref : String) (tx : Transaction)
    (op : LedgerOp)
    (htx : db.getTransactionByReference ref = some tx)
    (hterm : tx.status = TransactionStatus.success
        ∨ (tx.status = TransactionStatus.failed ∧ tx.type ≠ TransactionType.deposit)) :
    (applyOp db op).getTransactionByReference ref = some tx := by
  have hnotpending : tx.status ≠ TransactionStatus.pending := by
    rcases hterm with h | ⟨h, -⟩ <;> simp [h]
  cases op with
  | depositInit uid amount ref2 url now =>
    show (match create_deposit_transaction uid amount ref2 url now db with
          | .ok p => p.2
          | .error _ => db).getTransactionByReference ref = some tx
    unfold create_deposit_transaction
    cases h : db.getWalletByUser uid with
    | none => exact htx
    | some w => exact getTransaction_append_right _ htx
  | confirmDeposit r2 now =>
    show ((credit_wallet_from_deposit r2 now db).2).getTransactionByReference ref
        = some tx
    unfold credit_wallet_from_deposit
    split
    · exact htx
    next tr h1 =>
      split
      · exact htx
      next hs =>
        split
        · exact htx
        next hd =>
          split
          · exact htx
          next w h2 =>
            by_cases hr : r2 = ref
            · subst hr
              rw [htx] at h1
              injection h1 with h1
              subst h1
              rcases hterm with h | ⟨-, hty⟩
              · exact absurd h hs
              · exact absurd (not_not.mp hd) hty
            · show ((db.updateWalletBalance tr.wallet_id
                    (fun b => b + tr.amount)).updateTransactionByRef r2
                      (fun t => { t with status := .success, updated_at := now })).getTransactionByReference ref = some tx
              rw [getTransaction_updateTransactionByRef_other hr]
              · exact htx
              · intro t
                rfl
  | transfer sid num amount ref2 now =>
    show (transfer_funds_state sid num amount ref2 now db).getTransactionByReference ref
        = some tx
    unfold transfer_funds_state
    split
    next p heq =>
      unfold transfer_funds at heq
      split at heq
      · simp at heq
      next sw hsw =>
        split at heq
        · simp at heq
        next hlt =>
          split at heq
          · simp at heq
          next rwal hrw =>
            split at heq
            · simp at heq
            next hu =>
              injection heq with heq
              subst heq
              exact getTransaction_append_right _ htx
    next e heq => exact htx
  | statusRefresh r2 uid paystack =>
    show ((get_deposit_status r2 uid paystack db).2).getTransactionByReference ref
        = some tx
    unfold get_deposit_status
    split
    · exact htx
    next tr h1 =>
      split
      · exact htx
      next hu =>
        split
        next hp =>
          by_cases hr : r2 = ref
          · subst hr
            rw [htx] at h1
            injection h1 with h1
            subst h1
            exact absurd hp hnotpending
          · split
            · exact refreshStatus_getTransaction_other hr htx
            · exact refreshStatus_getTransaction_other hr htx
        next hp => exact htx

/-- Witness for C4 (amended): confirming the reference of a Success transfer
row leaves the row intact. -/
theorem C4_amended_success_terminal_witness :
    (applyOp exDB9 (.confirmDeposit "t9" 3)).getTransactionByReference "t9"
      = some exTx9 :=
  C4_amended_success_terminal exDB9 "t9" exTx9 (.confirmDeposit "t9" 3)
    (by decide) (Or.inl (by decide))

def exTx5 : Transaction :=
  { reference := "dep5", user_id := 1, wallet_id := 1, type := .deposit,
    amount := 100, status := .pending }

def exDB5 : DB := { wallets := [exW1], transactions := [exTx5] }

/-- Claim C5 fails on the code: the deposit-status route marks a Pending
deposit Success when Paystack reports success, without applying the wallet
credit, and the subsequent webhook delivery then sees the Success status and
returns true without ever crediting. The deposit endpoint documents that the
wallet is credited when the webhook confirms the payment, so the credit is
lost. Evaluation at the failing input: a Pending 100-kobo deposit on a
zero-balance wallet, a status poll that sees Paystack report success, then
the webhook delivery. -/
theorem C5_refresh_marks_success_without_credit :
    (exDB5.getTransactionByReference "dep5").map Transaction.status
        = some TransactionStatus.pending
    ∧ exDB5.walletBalance 1 = some 0
    ∧ ((get_deposit_status "dep5" 1 (some "success") exDB5).2.getTransactionByReference
          "dep5").map Transaction.status = some TransactionStatus.success
    ∧ (get_deposit_status "dep5" 1 (some "success") exDB5).2.walletBalance 1 = some 0
    ∧ credit_wallet_from_deposit "dep5" 9
          ((get_deposit_status "dep5" 1 (some "success") exDB5).2)
        = (true, (get_deposit_status "dep5" 1 (some "success") exDB5).2) := by
  decide

theorem mem_insertDesc {t y : Transaction} {l : List Transaction} :
    y ∈ insertDesc t l ↔ y = t ∨ y ∈ l := by
  induction l with
  | nil => simp [insertDesc]
  | cons x xs ih =>
    by_cases h : x.created_at ≤ t.created_at
    · simp [insertDesc, h, List.mem_cons]
    · simp only [insertDesc, h, if_neg, not_false_eq_true, List.mem_cons, ih]
      tauto

theorem pairwise_insertDesc {t : Transaction} {l : List Transaction}
    (h : l.Pairwise (fun a b => b.created_at ≤ a.created_at)) :
    (insertDesc t l).Pairwise (fun a b => b.created_at ≤ a.created_at) := by
  induction l with
  | nil => simp [insertDesc]
  | cons x xs ih =>
    rcases List.pairwise_cons.mp h with ⟨hx, hxs⟩
    by_cases hc : x.created_at ≤ t.created_at
    · show (if x.created_at ≤ t.created_at then t :: x :: xs
        else x :: insertDesc t xs).Pairwise (fun a b => b.created_at ≤ a.created_at)
      rw [if_pos hc]
      refine List.pairwise_cons.mpr ⟨?_, List.pairwise_cons.mpr ⟨hx, hxs⟩⟩
      intro z hz
      rcases List.mem_cons.mp hz with rfl | hzxs
      · exact hc
      · exact le_trans (hx z hzxs) hc
    · show (if x.created_at ≤ t.created_at then t :: x :: xs
        else x :: insertDesc t xs).Pairwise (fun a b => b.created_at ≤ a.created_at)
      rw [if_neg hc]
      refine List.pairwise_cons.mpr ⟨?_, ih hxs⟩
      intro z hz
      rcases mem_insertDesc.mp hz with rfl | hzxs
      · omega
      · exact hx z hzxs

theorem mem_sortDesc {y : Transaction} {l : List Transaction} :
    y ∈ sortDesc l ↔ y ∈ l := by
  induction l with
  | nil => simp [sortDesc]
  | cons x xs ih => simp [sortDesc, mem_insertDesc, ih]

theorem pairwise_sortDesc (l : List Transaction) :
    (sortDesc l).Pairwise (fun a b => b.created_at ≤ a.created_at) := by
  induction l with
  | nil => simp [sortDesc]
  | cons x xs ih => exact pairwise_insertDesc ih

theorem get_transactions_route_eq (uid : Nat) (limit : Int) (offset : Nat) (db : DB) :
    get_transactions_route uid limit offset db
      = ((sortDesc (db.transactions.filter (fun t => t.user_id == uid))).drop
          offset).take
          (if (if limit > 100 then (100 : Int) else limit) < 1 then 10
           else if limit > 100 then 100 else limit).toNat := rfl

def exHistTx (i : Nat) : Transaction :=
  { reference := "h" ++ toString i, user_id := 1, wallet_id := 1, type := .deposit,
    amount := 100, status := .pending, created_at := i }

def exDB8 : DB := { wallets := [exW1], transactions := (List.range 11).map exHistTx }

/-- Counterexample to claim C8 as stated: for a requested limit of 0 the
route does not clamp to the interval with lower end 1 (which would return at
most one row); it sets the effective limit to 10, and on a store holding 11
rows for the caller it returns 10 rows. -/
theorem C8_counterexample_limit_below_one :
    (get_transactions_route 1 0 0 exDB8).length = 10
    ∧ max 1 (min 100 (0 : Int)) = 1 := by
  decide

/-- Claim C8 (amended): history returns only the caller's transactions,
ordered by creation time descending; a requested limit above 100 is capped
at 100, and a requested limit below 1 becomes the in-range effective limit
10 (not the clamped value 1), so at most 10 rows are returned. -/
theorem C8_amended_history_clamp (uid : Nat) (limit : Int) (offset : Nat) (db : DB) :
    (∀ t ∈ get_transactions_route uid limit offset db, t.user_id = uid)
    ∧ (get_transactions_route uid limit offset db).Pairwise
        (fun a b => b.created_at ≤ a.created_at)
    ∧ (get_transactions_route uid limit offset db).length ≤ 100
    ∧ (limit < 1 → (get_transactions_route uid limit offset db).length ≤ 10) := by
  rw [get_transactions_route_eq]
  refine ⟨?_, ?_, ?_, ?_⟩
  · intro t ht
    have h1 : t ∈ sortDesc (db.transactions.filter (fun t2 => t2.user_id == uid)) :=
      List.mem_of_mem_drop (List.mem_of_mem_take ht)
    have h2 := (List.mem_filter.mp (mem_sortDesc.mp h1)).2
    simpa using h2
  · exact List.Pairwise.sublist
      ((List.take_sublist _ _).trans (List.drop_sublist _ _))
      (pairwise_sortDesc _)
  · refine le_trans (List.length_take_le _ _) ?_
    split_ifs <;> omega
  · intro hlim
    refine le_trans (List.length_take_le _ _) ?_
    have h100 : ¬ limit > 100 := by omega
    rw [if_neg h100, if_pos (by omega : (limit : Int) < 1)]
    omega

/-- Witness for C8 (amended) at requested limit 0: at most 10 rows come
back. -/
theorem C8_amended_history_clamp_witness :
    (get_transactions_route 1 0 0 exDB8).length ≤ 10 :=
  (C8_amended_history_clamp 1 0 0 exDB8).2.2.2 (by decide)

/-- Counterexample to claim C1 as stated: the service-level transfer accepts
a negative amount (the balance check 0 < -1 fails to reject it), and the
recipient's balance is driven negative. -/
theorem C1_counterexample_negative_transfer_amount :
    (exDB1.wallets.all fun w => decide (0 ≤ w.balance)) = true
    ∧ (transfer_funds 1 "W2" (-1) "r1" 0 exDB1).toOption.isSome = true
    ∧ (runOps exDB1 [.transfer 1 "W2" (-1) "r1" 0]).walletBalance 2 = some (-1) := by
  decide

theorem Inv_applyOp {db : DB} {op : LedgerOp} (hInv : Inv db)
    (hamt : 0 ≤ op.opAmount) : Inv (applyOp db op) := by
  obtain ⟨hids, hbal, hamts⟩ := hInv
  cases op with
  | depositInit uid amount ref url now =>
    show Inv (match create_deposit_transaction uid amount ref url now db with
      | .ok p => p.2
      | .error _ => db)
    unfold create_deposit_transaction
    cases h : db.getWalletByUser uid with
    | none => exact ⟨hids, hbal, hamts⟩
    | some w =>
      refine ⟨hids, hbal, ?_⟩
      intro t ht
      rcases List.mem_append.mp ht with h1 | h2
      · exact hamts t h1
      · have ht2 := List.mem_singleton.mp h2
        subst ht2
        exact hamt
  | confirmDeposit ref now =>
    show Inv ((credit_wallet_from_deposit ref now db).2)
    unfold credit_wallet_from_deposit
    split
    · exact ⟨hids, hbal, hamts⟩
    next tr h1 =>
      split
      · exact ⟨hids, hbal, hamts⟩
      next hs =>
        split
        · exact ⟨hids, hbal, hamts⟩
        next hd =>
          split
          · exact ⟨hids, hbal, hamts⟩
          next w h2 =>
            have h1' : db.transactions.find? (fun t => t.reference == ref) = some tr := h1
            have htra : 0 ≤ tr.amount := hamts tr (List.mem_of_find?_eq_some h1')
            refine ⟨?_, ?_, ?_⟩
            · show ((modifyFirst (fun y => y.id == tr.wallet_id)
                  (fun y => { y with balance := y.balance + tr.amount })
                  db.wallets).map Wallet.id).Nodup
              rw [map_modifyFirst]
              · exact hids
              · intro x
                rfl
            · intro w2 hw2
              rcases mem_modifyFirst hw2 with h | ⟨x, hx, rfl⟩
              · exact hbal w2 h
              · have hxb : 0 ≤ x.balance := hbal x (List.mem_of_find?_eq_some hx)
                show 0 ≤ x.balance + tr.amount
                omega
            · intro t ht
              rcases mem_modifyFirst ht with h | ⟨x, hx, rfl⟩
              · exact hamts t h
              · show 0 ≤ x.amount
                exact hamts x (List.mem_of_find?_eq_some hx)
  | transfer sid num amount ref now =>
    show Inv (transfer_funds_state sid num amount ref now db)
    unfold transfer_funds_state
    split
    next p heq =>
      unfold transfer_funds at heq
      split at heq
      · simp at heq
      next sw hsw =>
        split at heq
        · simp at heq
        next hlt =>
          split at heq
          · simp at heq
          next rwal hrw =>
            split at heq
            · simp at heq
            next hu =>
              injection heq with heq
              subst heq
              have hsw' : db.wallets.find? (fun y => y.user_id == sid) = some sw := hsw
              have hrw' : db.wallets.find? (fun y => y.wallet_number == num)
                  = some rwal := hrw
              have hmems : sw ∈ db.wallets := List.mem_of_find?_eq_some hsw'
              have hmemr : rwal ∈ db.wallets := List.mem_of_find?_eq_some hrw'
              have huser : sw.user_id = sid := by simpa using List.find?_some hsw'
              have hne : sw.id ≠ rwal.id := by
                intro h
                have heq2 : sw = rwal := List.inj_on_of_nodup_map hids hmems hmemr h
                exact hu (by rw [← heq2, huser])
              have hfinds : db.wallets.find? (fun y => y.id == sw.id) = some sw :=
                find?_key_of_nodup hids hmems
              have hfindr : db.wallets.find? (fun y => y.id == rwal.id) = some rwal :=
                find?_key_of_nodup hids hmemr
              have hamount : (0 : Int) ≤ amount := hamt
              have hinner : (modifyFirst (fun y => y.id == sw.id)
                  (fun y => { y with balance := y.balance - amount })
                  db.wallets).find? (fun y => y.id == rwal.id) = some rwal := by
                rw [find?_modifyFirst_of_disjoint]
                · exact hfindr
                · intro y hy
                  have hy' : y.id = sw.id := by simpa using hy
                  rw [hy']
                  exact beq_eq_false_iff_ne.mpr hne
                · intro y
                  rfl
              refine ⟨?_, ?_, ?_⟩
              · show ((modifyFirst (fun y => y.id == rwal.id)
                    (fun y => { y with balance := y.balance + amount })
                    (modifyFirst (fun y => y.id == sw.id)
                      (fun y => { y with balance := y.balance - amount })
                      db.wallets)).map Wallet.id).Nodup
                rw [map_modifyFirst]
                · rw [map_modifyFirst]
                  · exact hids
                  · intro x
                    rfl
                · intro x
                  rfl
              · intro w2 hw2
                rcases mem_modifyFirst hw2 with h | ⟨x, hx, rfl⟩
                · rcases mem_modifyFirst h with h2 | ⟨x, hx, rfl⟩
                  · exact hbal w2 h2
                  · have hxeq : x = sw := Option.some.inj (hx.symm.trans hfinds)
                    subst hxeq
                    show 0 ≤ x.balance - amount
                    omega
                · have hxeq : x = rwal := Option.some.inj (hx.symm.trans hinner)
                  subst hxeq
                  have hxb : 0 ≤ x.balance := hbal x hmemr
                  show 0 ≤ x.balance + amount
                  omega
              · intro t ht
                rcases List.mem_append.mp ht with h | h
                · exact hamts t h
                · rcases h with _ | ⟨_, h⟩
                  · exact hamount
                  · rcases h with _ | ⟨_, h⟩
                    · exact hamount
                    · exact absurd h (List.not_mem_nil _)
    next e heq => exact ⟨hids, hbal, hamts⟩
  | statusRefresh ref uid paystack =>
    show Inv ((get_deposit_status ref uid paystack db).2)
    have hrefresh : Inv (refreshStatus ref paystack db) := by
      unfold refreshStatus
      cases paystack with
      | none => exact ⟨hids, hbal, hamts⟩
      | some s =>
        show Inv (if s = "success" then
            db.updateTransactionByRef ref (fun t => { t with status := .success })
          else if s = "failed" then
            db.updateTransactionByRef ref (fun t => { t with status := .failed })
          else db)
        have hupd : ∀ st : TransactionStatus,
            Inv (db.updateTransactionByRef ref (fun t => { t with status := st })) := by
          intro st
          refine ⟨hids, hbal, ?_⟩
          intro t ht
          rcases mem_modifyFirst ht with h | ⟨x, hx, rfl⟩
          · exact hamts t h
          · show 0 ≤ x.amount
            exact hamts x (List.mem_of_find?_eq_some hx)
        by_cases hs1 : s = "success"
        · rw [if_pos hs1]
          exact hupd _
        · rw [if_neg hs1]
          by_cases hs2 : s = "failed"
          · rw [if_pos hs2]
            exact hupd _
          · rw [if_neg hs2]
            exact ⟨hids, hbal, hamts⟩
    unfold get_deposit_status
    split
    · exact ⟨hids, hbal, hamts⟩
    next tr h1 =>
      split
      · exact ⟨hids, hbal, hamts⟩
      next hu =>
        split
        next hp =>
          split
          · exact hrefresh
          · exact hrefresh
        next hp => exact ⟨hids, hbal, hamts⟩

theorem Inv_runOps {db : DB} {ops : List LedgerOp} (hInv : Inv db)
    (hops : ∀ op ∈ ops, 0 ≤ op.opAmount) : Inv (runOps db ops) := by
  induction ops generalizing db with
  | nil => exact hInv
  | cons op rest ih =>
    exact ih (Inv_applyOp hInv (hops op (List.mem_cons_self _ _)))
      (fun o ho => hops o (List.mem_cons_of_mem _ ho))

/-- Claim C1 (amended): starting from a store with unique wallet ids,
non-negative balances and non-negative recorded amounts, every sequence of
ledger operations whose deposit and transfer amounts are non-negative keeps
every wallet balance non-negative. The restriction to non-negative amounts
is forced: the service itself accepts a negative transfer amount and drives
the recipient negative (the routes reject amounts below 100 kobo, so all
API-reachable amounts satisfy the restriction). -/
theorem C1_amended_balances_nonneg (db : DB) (ops : List LedgerOp)
    (hids : (db.wallets.map Wallet.id).Nodup)
    (hbal : ∀ w ∈ db.wallets, 0 ≤ w.balance)
    (hamts : ∀ t ∈ db.transactions, 0 ≤ t.amount)
    (hops : ∀ op ∈ ops, 0 ≤ op.opAmount) :
    ∀ w ∈ (runOps db ops).wallets, 0 ≤ w.balance :=
  (Inv_runOps ⟨hids, hbal, hamts⟩ hops).2.1

def exOps1 : List LedgerOp :=
  [.depositInit 1 300 "d1" "u" 0, .confirmDeposit "d1" 1,
   .transfer 1 "W2" 200 "t1" 2, .statusRefresh "d1" 1 (some "success")]

/-- Witness for C1 (amended): a deposit-confirm-transfer-refresh sequence
from the two-wallet zero-balance store leaves every balance non-negative. -/
theorem C1_amended_balances_nonneg_witness :
    ((runOps exDB1 exOps1).wallets.all fun w => decide (0 ≤ w.balance)) = true := by
  have h := C1_amended_balances_nonneg exDB1 exOps1
    (by decide) (by decide) (by decide) (by decide)
  exact List.all_eq_true.mpr fun w hw => decide_eq_true (h w hw)

end WalletService
